import Mathlib

/-!
Verification development for the PDF-analyzer backend core:
the text chunker (`app/utils/text_chunker.py`), the retry/timeout
decorators (`app/utils/decorators.py`), the LLM client response handling
(`app/utils/llm_client.py`) and the comparison endpoint orchestration
(`app/routers/pdf_router.py`).

Python strings are embedded as `List Char`; Python exceptions as an
inductive error type carried in `Except`; the async control flow of the
retry loop as a fuel-indexed recursion that also records the number of
calls made and the sleep durations computed between attempts.
-/

namespace PDFBackend

/-! ## Python `str.split()` — whitespace word splitting

`text.split()` in Python splits on runs of whitespace and never returns
empty words.  `splitWSAux l cur` processes `l` with `cur` holding the
(reversed) characters of the word currently being read. -/

def splitWSAux : List Char → List Char → List (List Char)
  | [], cur => if cur = [] then [] else [cur.reverse]
  | c :: cs, cur =>
    if c.isWhitespace then
      if cur = [] then splitWSAux cs [] else cur.reverse :: splitWSAux cs []
    else
      splitWSAux cs (c :: cur)

def splitWS (l : List Char) : List (List Char) := splitWSAux l []

/-- Python `str.strip()`: drop leading and trailing whitespace. -/
def pyStrip (l : List Char) : List Char :=
  ((l.dropWhile Char.isWhitespace).reverse.dropWhile Char.isWhitespace).reverse

/-- Python `" ".join(words)`. -/
def joinSp : List (List Char) → List Char
  | [] => []
  | [w] => w
  | w :: ws => w ++ ' ' :: joinSp ws

/-! ## `chunk_text` (`app/utils/text_chunker.py`)

The loop body over `words = text.split()`, carrying `current_chunk`
(the list of words of the chunk under construction) and
`current_length`.  On `current_length + len(word) + 1 > chunk_size` the
current chunk is flushed (even when empty) and the word starts a fresh
chunk with `current_length = len(word)`; otherwise the word is appended
and `current_length += len(word) + 1`.  At the end a non-empty current
chunk is flushed. -/

def chunkAux (chunk_size : Nat) : List (List Char) → List (List Char) → Nat → List (List Char)
  | [], cur, _ => if cur = [] then [] else [joinSp cur]
  | w :: ws, cur, curLen =>
    if chunk_size < curLen + w.length + 1 then
      joinSp cur :: chunkAux chunk_size ws [w] w.length
    else
      chunkAux chunk_size ws (cur ++ [w]) (curLen + w.length + 1)

/-- `chunk_text(text, max_chunk_size)` with an explicit positive chunk
size (the Python `max_chunk_size or settings.SUMMARY_CHUNK_SIZE_CHARS`
fallback only substitutes the configured default for `None`/`0`). -/
def chunk_text (text : List Char) (chunk_size : Nat) : List (List Char) :=
  chunkAux chunk_size (splitWS text) [] 0

example : chunk_text "hello".data 5 = [[], "hello".data] := by decide

example : chunk_text "a bb ccc".data 5 = ["a bb".data, "ccc".data] := by decide

example : chunk_text "".data 7 = [] := by decide

/-! ## Python exceptions

The exception universe relevant to the decorated LLM call.  The
`retryExhausted` constructor exists only to make the spec's §7 error
taxonomy statable: `async_retry` in `decorators.py` never constructs a
wrapper — on exhaustion it re-raises the caught exception with a bare
`raise`. -/

inductive PyError where
  /-- `RuntimeError(msg)` as raised by `call_llm_api`'s response parsing
  and HTTP-status handling. -/
  | runtimeError (msg : List Char)
  /-- `asyncio.TimeoutError` raised by `asyncio.wait_for`. -/
  | timeoutError
  /-- `httpx.RequestError` (network-level failure), tagged for identity. -/
  | netError (tag : Nat)
  /-- Spec §7 `RetryExhausted(inner, attempts)` — present in the spec's
  taxonomy, absent from the code. -/
  | retryExhausted (inner : PyError) (attempts : Nat)
deriving DecidableEq, Repr

/-! ## `async_retry` (`app/utils/decorators.py`)

The loop `while attempt <= max_retries: try: return await func(...)
except exceptions as e: attempt += 1; if attempt > max_retries: raise;
sleep(delay + uniform(-jitter, jitter)); delay *= backoff_factor`.

The behaviour of the wrapped function on the i-th call (0-indexed) is an
oracle `f : Nat → Except E A`; the retryable predicate embeds the
`exceptions` tuple (`isinstance` membership); the jitter samples drawn by
`random.uniform(-jitter, jitter)` are an oracle `jv : Nat → ℚ`.  The run
records the result, the total number of calls to `f`, and the values
passed to `asyncio.sleep` between attempts.  The fuel argument is
`max_retries - attempt`, the number of retries still allowed. -/

structure RetryRun (E A : Type) where
  result : Except E A
  calls : Nat
  sleeps : List ℚ
deriving Repr

def retryLoop {E A : Type} (f : Nat → Except E A) (retryable : E → Bool)
    (jv : Nat → ℚ) (backoff_factor : ℚ) :
    Nat → Nat → ℚ → RetryRun E A
  | 0, attempt, _ =>
    match f attempt with
    | .ok a => ⟨.ok a, 1, []⟩
    | .error e => ⟨.error e, 1, []⟩
  | fuel + 1, attempt, delay =>
    match f attempt with
    | .ok a => ⟨.ok a, 1, []⟩
    | .error e =>
      if retryable e then
        let rest := retryLoop f retryable jv backoff_factor fuel (attempt + 1)
          (delay * backoff_factor)
        ⟨rest.result, rest.calls + 1, (delay + jv attempt) :: rest.sleeps⟩
      else ⟨.error e, 1, []⟩

/-- A call of the `async_retry(max_retries, initial_delay, backoff_factor,
jitter, exceptions)`-wrapped function: attempts start at 0 with
`delay = initial_delay` and at most `max_retries` retries remain. -/
def async_retry_run {E A : Type} (f : Nat → Except E A) (retryable : E → Bool)
    (max_retries : Nat) (initial_delay backoff_factor : ℚ) (jv : Nat → ℚ) :
    RetryRun E A :=
  retryLoop f retryable jv backoff_factor max_retries 0 initial_delay

/-- `asyncio.sleep(t)` suspends for `t` seconds, treating a non-positive
argument as an immediate wakeup: the wall-clock duration slept. -/
def effectiveSleep (t : ℚ) : ℚ := max 0 t

/-! ## `async_timeout` (`app/utils/decorators.py`)

`asyncio.wait_for(func(...), timeout)` races the operation against the
deadline; the decorator re-raises `asyncio.TimeoutError` unchanged.  An
asynchronous operation is embedded as its intrinsic running time plus
the outcome it would produce if allowed to finish. -/

structure TimedOp (A : Type) where
  dur : ℚ
  res : Except PyError A

/-- `asyncio.wait_for(op, timeout)`: if the deadline elapses first the
operation is cancelled — its outcome is discarded and
`asyncio.TimeoutError` is raised after exactly `timeout` seconds;
otherwise the operation's own outcome stands. -/
def wait_for {A : Type} (timeout : ℚ) (op : TimedOp A) : TimedOp A :=
  if timeout < op.dur then ⟨timeout, .error .timeoutError⟩ else op

/-- The `@async_timeout(timeout)` wrapper around an operation: the
decorator only logs on `asyncio.TimeoutError` and re-raises it. -/
def async_timeout_run {A : Type} (timeout : ℚ) (op : TimedOp A) : TimedOp A :=
  wait_for timeout op

/-! ## Configuration defaults (`app/utils/config.py`)

Default field values of `Settings`; the environment may override them,
but the claims about the default configuration use these. -/

def LLM_TIMEOUT_SECONDS : ℚ := 30

def LLM_MAX_RETRIES : Nat := 3

def SUMMARY_CHUNK_SIZE_CHARS : Nat := 3000

/-! ## `call_llm_api` response handling (`app/utils/llm_client.py`)

A parsed 2xx JSON body, reduced to the fields the code inspects:
`choices` (absent, or a list whose head is examined) and `usage`.  For
the first choice only two facts matter to the code: whether
`"message" in choice and isinstance(choice["message"], dict) and
"content" in choice["message"]` holds (and then the content string), and
whether `"text" in choice` holds (and then that string). -/

structure LLMChoice where
  message_content : Option (List Char)
  text : Option (List Char)
deriving DecidableEq, Repr

structure LLMUsage where
  prompt_tokens : Option Nat
  completion_tokens : Option Nat
  total_tokens : Option Nat
deriving DecidableEq, Repr

structure LLMResponse where
  choices : Option (List LLMChoice)
  usage : Option LLMUsage
deriving DecidableEq, Repr

/-- The dict returned by `call_llm_api` on success. -/
structure LLMResult where
  summary : List Char
  prompt_tokens : Option Nat
  completion_tokens : Option Nat
  total_tokens : Option Nat
  estimated_cost : Option ℚ
deriving DecidableEq, Repr

def msgNoContent : List Char :=
  ("LLM response has no \x27message.content\x27 or \x27text\x27 field.").data

def msgNoChoices : List Char :=
  ("Unexpected LLM response structure: no \x27choices\x27.").data

/-- Cost formula from the code: `prompt_tokens/1000 * 0.0015 +
completion_tokens/1000 * 0.002`, computed only when both counts are
present. -/
def estimatedCost (usage : Option LLMUsage) : Option ℚ :=
  match usage with
  | none => none
  | some u =>
    match u.prompt_tokens, u.completion_tokens with
    | some p, some c => some ((p : ℚ) / 1000 * (15 / 10000) + (c : ℚ) / 1000 * (2 / 1000))
    | _, _ => none

/-- The 2xx branch of `call_llm_api`: extract the content (chat shape
first, then legacy `text` shape; neither, or no/empty `choices`, raises
`RuntimeError`), strip it, and copy token usage through. -/
def parse_llm_response (data : LLMResponse) : Except PyError LLMResult :=
  match data.choices with
  | some (choice :: _) =>
    let content? : Except PyError (List Char) :=
      match choice.message_content with
      | some c => .ok c
      | none =>
        match choice.text with
        | some c => .ok c
        | none => .error (.runtimeError msgNoContent)
    content?.map fun content =>
      { summary := pyStrip content
        prompt_tokens := (data.usage.map (·.prompt_tokens)).join
        completion_tokens := (data.usage.map (·.completion_tokens)).join
        total_tokens := (data.usage.map (·.total_tokens)).join
        estimated_cost := estimatedCost data.usage }
  | _ => .error (.runtimeError msgNoChoices)

/-- Outcome of one HTTP POST to the chat-completions endpoint. -/
inductive HttpOutcome where
  /-- 2xx with a JSON body. -/
  | success (resp : LLMResponse)
  /-- non-2xx status: `raise_for_status` throws `httpx.HTTPStatusError`,
  re-raised as `RuntimeError` with the status and a body snippet. -/
  | httpStatus (code : Nat) (snippet : List Char)
  /-- `httpx.RequestError`: network-level failure, re-raised as is. -/
  | netFail (tag : Nat)
deriving DecidableEq, Repr

def httpStatusMsg (code : Nat) (snippet : List Char) : List Char :=
  ("LLM API returned HTTP ").data ++ (toString code).data ++ (": ").data ++ snippet

/-- The body of `call_llm_api` for one attempt, given that attempt's HTTP
outcome. -/
def llm_attempt (out : HttpOutcome) : Except PyError LLMResult :=
  match out with
  | .success resp => parse_llm_response resp
  | .httpStatus code snippet => .error (.runtimeError (httpStatusMsg code snippet))
  | .netFail tag => .error (.netError tag)

/-- A full run of `call_llm_api` under the default decorator stack
`@async_retry(settings.LLM_MAX_RETRIES)` over
`@async_timeout(settings.LLM_TIMEOUT_SECONDS)`: retry with
`max_retries = 3`, `initial_delay = 1.0`, `backoff_factor = 2.0`,
`jitter = 0.1`, `exceptions = (Exception,)` — every `PyError` is an
`Exception` instance, so the retryable predicate is constantly true. -/
def call_llm_api_run (http : Nat → HttpOutcome) (jv : Nat → ℚ) :
    RetryRun PyError LLMResult :=
  async_retry_run (fun i => llm_attempt (http i)) (fun _ => true)
    LLM_MAX_RETRIES 1 2 jv

/-! ## `compare_pdfs` orchestration (`app/routers/pdf_router.py`)

The per-document summarization step and the verdict step of the
`/compare-pdfs` endpoint, after PDF validation/saving/extraction (file
handling is outside this model: each document is represented by its
extracted text).  LLM activity is instrumented: every run returns the
list of prompts handed to the LLM client, so the number of underlying
LLM calls is the length of that list. -/

/-- The zero-usage summary dict the router builds inline for a document
whose extracted text is empty after `strip()`. -/
def zeroSummary : LLMResult :=
  { summary := []
    prompt_tokens := some 0
    completion_tokens := some 0
    total_tokens := some 0
    estimated_cost := some 0 }

/-- The placeholder verdict dict the router substitutes when the verdict
call raises. -/
def placeholderVerdict : LLMResult :=
  { summary := ("Unable to generate verdict.").data
    prompt_tokens := some 0
    completion_tokens := some 0
    total_tokens := some 0
    estimated_cost := some 0 }

def cmpPre : List Char :=
  ("Compare the following two document summaries and decide which is more favorable.\nDocument 1 Summary:\n").data

def cmpMid : List Char := ("\n\nDocument 2 Summary:\n").data

def cmpPost : List Char :=
  ("\n\nRespond with a verdict: \x27Document 1\x27, \x27Document 2\x27, or \x27Indeterminate\x27, and provide a brief justification.").data

/-- The `compare_prompt` f-string of `compare_pdfs`, embedding both
summary texts verbatim. -/
def comparePrompt (s1 s2 : List Char) : List Char :=
  cmpPre ++ s1 ++ cmpMid ++ s2 ++ cmpPost

/-- `small` occurs verbatim (contiguously) inside `big`. -/
def hasSub (big small : List Char) : Prop :=
  ∃ pre suf, big = pre ++ (small ++ suf)

/-- Modelled from the spec: `summarize_text_with_llm` is defined in
`app/services/pdf_service.py`, which is absent from the sources (only
its caller `pdf_router.py` is present).  Per spec §4.4, `summarize(text)`
short-circuits on text that is empty after trimming — a zero-usage,
empty-text result and no LLM-client call — and otherwise delegates
directly to the LLM client, issuing exactly one call whose prompt
carries the text.  The LLM client is the oracle `llm`; the second
component lists the prompts of the LLM calls issued. -/
def summarize_text_with_llm (llm : List Char → Except PyError LLMResult)
    (text : List Char) : Except PyError LLMResult × List (List Char) :=
  if pyStrip text = [] then (.ok zeroSummary, [])
  else (llm text, [text])

/-- The per-file body of `compare_pdfs`: empty extracted text appends an
inline zero-usage summary without any summarization call; otherwise
`summarize_text_with_llm` is awaited and any exception becomes
`HTTPException(500)` (modelled as `Except.error 500`). -/
def routerFileStep (llm : List Char → Except PyError LLMResult)
    (text : List Char) : Except Nat LLMResult × List (List Char) :=
  if pyStrip text = [] then (.ok zeroSummary, [])
  else
    match summarize_text_with_llm llm text with
    | (.ok r, ps) => (.ok r, ps)
    | (.error _, ps) => (.error 500, ps)

/-- The JSON payload of a successful `/compare-pdfs` response (file
names omitted — they do not interact with the claims). -/
structure CompareResponse where
  summary1 : LLMResult
  summary2 : LLMResult
  verdict : LLMResult
deriving DecidableEq, Repr

/-- `compare_pdfs` on two extracted texts: summarize each in order
(failures become HTTP 500 and abort), then build `compare_prompt` from
the two summary texts and ask for a verdict; a failing verdict call is
replaced by `placeholderVerdict` instead of failing the request. -/
def compare_pdfs_run (llm : List Char → Except PyError LLMResult)
    (t1 t2 : List Char) : Except Nat CompareResponse × List (List Char) :=
  match routerFileStep llm t1 with
  | (.error s, ps) => (.error s, ps)
  | (.ok r1, ps1) =>
    match routerFileStep llm t2 with
    | (.error s, ps2) => (.error s, ps1 ++ ps2)
    | (.ok r2, ps2) =>
      let vp := comparePrompt r1.summary r2.summary
      match summarize_text_with_llm llm vp with
      | (.ok v, ps3) =>
        (.ok ⟨r1, r2, v⟩, ps1 ++ ps2 ++ ps3)
      | (.error _, ps3) =>
        (.ok ⟨r1, r2, placeholderVerdict⟩, ps1 ++ ps2 ++ ps3)

/-! ## Lemmas about the retry loop -/

lemma retryLoop_calls_le {E A : Type} (f : Nat → Except E A) (retryable : E → Bool)
    (jv : Nat → ℚ) (b : ℚ) :
    ∀ (fuel attempt : Nat) (delay : ℚ),
      (retryLoop f retryable jv b fuel attempt delay).calls ≤ fuel + 1 := by
  intro fuel
  induction fuel with
  | zero =>
    intro attempt delay
    simp only [retryLoop]
    cases f attempt <;> simp
  | succ fuel ih =>
    intro attempt delay
    simp only [retryLoop]
    cases f attempt with
    | ok a => simp
    | error e =>
      by_cases h : retryable e = true
      · simp only [h, if_true]
        have := ih (attempt + 1) (delay * b)
        omega
      · simp [h]

lemma retryLoop_succeeds {E A : Type} (f : Nat → Except E A) (retryable : E → Bool)
    (jv : Nat → ℚ) (b : ℚ) :
    ∀ (k fuel attempt : Nat) (delay : ℚ) (a : A), k ≤ fuel →
      (∀ i, i < k → ∃ e, f (attempt + i) = .error e ∧ retryable e = true) →
      f (attempt + k) = .ok a →
      (retryLoop f retryable jv b fuel attempt delay).result = .ok a ∧
      (retryLoop f retryable jv b fuel attempt delay).calls = k + 1 := by
  intro k
  induction k with
  | zero =>
    intro fuel attempt delay a _ _ hk
    simp only [Nat.add_zero] at hk
    cases fuel <;> simp [retryLoop, hk]
  | succ k ih =>
    intro fuel attempt delay a hle hfail hk
    obtain ⟨e, he, hre⟩ := hfail 0 (Nat.succ_pos k)
    simp only [Nat.add_zero] at he
    obtain ⟨fuel, rfl⟩ : ∃ m, fuel = m + 1 := ⟨fuel - 1, by omega⟩
    have hrec := ih fuel (attempt + 1) (delay * b) a (by omega)
      (fun i hi => by
        have := hfail (i + 1) (by omega)
        simpa [Nat.add_assoc, Nat.add_comm 1 i] using this)
      (by simpa [Nat.add_assoc, Nat.add_comm 1 k] using hk)
    simp only [retryLoop, he, hre, if_true]
    exact ⟨hrec.1, by simp [hrec.2]⟩

lemma retryLoop_exhausts {E A : Type} (f : Nat → Except E A) (retryable : E → Bool)
    (jv : Nat → ℚ) (b : ℚ) (err : Nat → E) :
    ∀ (fuel attempt : Nat) (delay : ℚ),
      (∀ i, i ≤ fuel → f (attempt + i) = .error (err (attempt + i)) ∧
        retryable (err (attempt + i)) = true) →
      (retryLoop f retryable jv b fuel attempt delay).result =
        .error (err (attempt + fuel)) ∧
      (retryLoop f retryable jv b fuel attempt delay).calls = fuel + 1 := by
  intro fuel
  induction fuel with
  | zero =>
    intro attempt delay h
    obtain ⟨he, hre⟩ := h 0 (Nat.le_refl 0)
    simp only [Nat.add_zero] at he hre ⊢
    simp [retryLoop, he]
  | succ fuel ih =>
    intro attempt delay h
    obtain ⟨he, hre⟩ := h 0 (Nat.zero_le _)
    simp only [Nat.add_zero] at he hre
    have hrec := ih (attempt + 1) (delay * b) (fun i hi => by
      have := h (i + 1) (by omega)
      simpa [Nat.add_assoc, Nat.add_comm 1 i] using this)
    simp only [retryLoop, he, hre, if_true]
    have h1 : attempt + 1 + fuel = attempt + (fuel + 1) := by omega
    rw [h1] at hrec
    exact ⟨hrec.1, by simp [hrec.2]⟩

lemma retryLoop_sleeps_get {E A : Type} (f : Nat → Except E A) (retryable : E → Bool)
    (jv : Nat → ℚ) (b : ℚ) :
    ∀ (fuel attempt : Nat) (delay : ℚ) (i : Nat) (s : ℚ),
      (retryLoop f retryable jv b fuel attempt delay).sleeps.get? i = some s →
      s = delay * b ^ i + jv (attempt + i) := by
  intro fuel
  induction fuel with
  | zero =>
    intro attempt delay i s hs
    simp only [retryLoop] at hs
    cases hf : f attempt <;> simp [hf] at hs
  | succ fuel ih =>
    intro attempt delay i s hs
    simp only [retryLoop] at hs
    cases hf : f attempt with
    | ok a => simp [hf] at hs
    | error e =>
      by_cases h : retryable e = true
      · simp only [hf, h, if_true] at hs
        cases i with
        | zero =>
          simp only [List.get?_cons_zero, Option.some_inj] at hs
          simp [← hs]
        | succ i =>
          simp only [List.get?_cons_succ] at hs
          have := ih (attempt + 1) (delay * b) i s hs
          rw [this]
          have h1 : attempt + 1 + i = attempt + (i + 1) := by omega
          rw [h1]
          ring
      · simp [hf, h] at hs

/-! ## Claims C2, C3, C4 — retry wrapper -/

/-- C3: for every policy with `maxRetries = n` and every operation, the
wrapper invokes the operation at most `n + 1` times; an operation whose
failures all match the retryable predicate and which first succeeds on
attempt `k + 1` (1-indexed; `k` is the 0-indexed index of the first
success, `k ≤ n`) is invoked exactly `k + 1` times and its success
result is returned. -/
theorem async_retry_call_count_spec {E A : Type} (f : Nat → Except E A)
    (retryable : E → Bool) (max_retries : Nat) (initial_delay backoff_factor : ℚ)
    (jv : Nat → ℚ) (k : Nat) (a : A)
    (hk : k ≤ max_retries)
    (hfail : ∀ i, i < k → ∃ e, f i = .error e ∧ retryable e = true)
    (hsucc : f k = .ok a) :
    (async_retry_run f retryable max_retries initial_delay backoff_factor jv).result
      = .ok a ∧
    (async_retry_run f retryable max_retries initial_delay backoff_factor jv).calls
      = k + 1 ∧
    ∀ (g : Nat → Except E A),
      (async_retry_run g retryable max_retries initial_delay backoff_factor jv).calls
        ≤ max_retries + 1 := by
  have h := retryLoop_succeeds f retryable jv backoff_factor k max_retries 0
    initial_delay a hk (by simpa using hfail) (by simpa using hsucc)
  exact ⟨h.1, h.2, fun g =>
    retryLoop_calls_le g retryable jv backoff_factor max_retries 0 initial_delay⟩

/-- Witness for C3, the spec's own example: with `maxRetries = 3`, an
operation failing on attempts 1 and 2 and succeeding on attempt 3
returns the success value and is called exactly 3 times; any operation
is called at most 4 times. -/
theorem async_retry_call_count_spec_witness :
    (async_retry_run (fun i => if i < 2 then (.error (.netError i) : Except PyError Nat)
        else .ok 42) (fun _ => true) 3 1 2 (fun _ => 0)).result = .ok 42 ∧
    (async_retry_run (fun i => if i < 2 then (.error (.netError i) : Except PyError Nat)
        else .ok 42) (fun _ => true) 3 1 2 (fun _ => 0)).calls = 2 + 1 ∧
    ∀ (g : Nat → Except PyError Nat),
      (async_retry_run g (fun _ => true) 3 1 2 (fun _ => 0)).calls ≤ 3 + 1 :=
  async_retry_call_count_spec
    (fun i => if i < 2 then (.error (.netError i) : Except PyError Nat) else .ok 42)
    (fun _ => true) 3 1 2 (fun _ => 0) 2 42 (by omega)
    (fun i hi => ⟨.netError i, by simp [hi], rfl⟩) (by simp)

/-- C2 amended: when all `maxRetries + 1` attempts fail with retryable
errors, `async_retry` re-raises the last underlying error itself (the
error of the final attempt), unwrapped — there is no `RetryExhausted`
wrapper in the code, and the attempt count appears only in a log
message — after exactly `maxRetries + 1` calls. -/
theorem async_retry_exhaustion_spec {E A : Type} (f : Nat → Except E A)
    (retryable : E → Bool) (err : Nat → E) (max_retries : Nat)
    (initial_delay backoff_factor : ℚ) (jv : Nat → ℚ)
    (h : ∀ i, i ≤ max_retries → f i = .error (err i) ∧ retryable (err i) = true) :
    (async_retry_run f retryable max_retries initial_delay backoff_factor jv).result
      = .error (err max_retries) ∧
    (async_retry_run f retryable max_retries initial_delay backoff_factor jv).calls
      = max_retries + 1 := by
  have hx := retryLoop_exhausts f retryable jv backoff_factor err max_retries 0
    initial_delay (by simpa using h)
  simpa using hx

/-- Witness for the amended C2: with `maxRetries = 3` and an operation
failing all 4 attempts with distinguishable errors, the raised error is
the bare 4th error after 4 calls. -/
theorem async_retry_exhaustion_spec_witness :
    (async_retry_run (fun i => (.error (.netError i) : Except PyError Nat))
        (fun _ => true) 3 1 2 (fun _ => 0)).result = .error (.netError 3) ∧
    (async_retry_run (fun i => (.error (.netError i) : Except PyError Nat))
        (fun _ => true) 3 1 2 (fun _ => 0)).calls = 3 + 1 :=
  async_retry_exhaustion_spec (fun i => (.error (.netError i) : Except PyError Nat))
    (fun _ => true) (fun i => (.netError i : PyError)) 3 1 2 (fun _ => 0)
    (fun _ _ => ⟨rfl, rfl⟩)

/-- Counterexample to C2 as stated: with `maxRetries = 3` and an
operation failing all 4 attempts, the wrapper's failure is the bare 4th
underlying error, not an error of kind `RetryExhausted` wrapping it. -/
theorem async_retry_no_wrapper_counterexample :
    (async_retry_run (fun i => (.error (.netError i) : Except PyError Nat))
        (fun _ => true) 3 1 2 (fun _ => 0)).result = .error (.netError 3) ∧
    (async_retry_run (fun i => (.error (.netError i) : Except PyError Nat))
        (fun _ => true) 3 1 2 (fun _ => 0)).result
      ≠ .error (.retryExhausted (.netError 3) 4) := by
  refine ⟨rfl, fun h => ?_⟩
  have h2 : (Except.error (PyError.netError 3) : Except PyError Nat)
      = .error (.retryExhausted (.netError 3) 4) := h
  simp at h2

/-- C4: every sleep the wrapper performs between attempt `i` and attempt
`i + 1` (the value handed to `asyncio.sleep`, whose wall-clock effect is
`effectiveSleep`, never negative) lies within
`[initialDelay * backoffFactor ^ i - jitter,
  initialDelay * backoffFactor ^ i + jitter]`, for every policy with
nonnegative delay parameters and jitter samples drawn from
`[-jitter, jitter]`. -/
theorem async_retry_backoff_bounds {E A : Type} (f : Nat → Except E A)
    (retryable : E → Bool) (max_retries : Nat)
    (initial_delay backoff_factor jitter : ℚ) (jv : Nat → ℚ)
    (h0 : 0 ≤ initial_delay) (hb : 0 ≤ backoff_factor) (hj : 0 ≤ jitter)
    (hjv : ∀ i, -jitter ≤ jv i ∧ jv i ≤ jitter) (i : Nat) (s : ℚ)
    (hs : (async_retry_run f retryable max_retries initial_delay backoff_factor
      jv).sleeps.get? i = some s) :
    initial_delay * backoff_factor ^ i - jitter ≤ effectiveSleep s ∧
    effectiveSleep s ≤ initial_delay * backoff_factor ^ i + jitter ∧
    0 ≤ effectiveSleep s := by
  have hsv := retryLoop_sleeps_get f retryable jv backoff_factor max_retries 0
    initial_delay i s hs
  simp only [Nat.zero_add] at hsv
  have hμ : 0 ≤ initial_delay * backoff_factor ^ i :=
    mul_nonneg h0 (pow_nonneg hb i)
  obtain ⟨hl, hr⟩ := hjv i
  refine ⟨?_, ?_, le_max_left 0 s⟩
  · have h1 : initial_delay * backoff_factor ^ i - jitter ≤ s := by
      rw [hsv]; linarith
    exact h1.trans (le_max_right 0 s)
  · apply max_le
    · linarith
    · rw [hsv]; linarith

/-- Witness for C4: default policy parameters
(`initial_delay = 1`, `backoff_factor = 2`, `jitter = 1/10`), an
operation failing every attempt, jitter sample `1/10` each time: the
sleep between attempts 2 and 3 is `2 + 1/10` and lies within
`[2 - 1/10, 2 + 1/10]`. -/
theorem async_retry_backoff_bounds_witness :
    (1 : ℚ) * 2 ^ 1 - 1 / 10 ≤ effectiveSleep (21 / 10) ∧
    effectiveSleep (21 / 10) ≤ (1 : ℚ) * 2 ^ 1 + 1 / 10 ∧
    (0 : ℚ) ≤ effectiveSleep (21 / 10) :=
  async_retry_backoff_bounds (fun i => (.error (.netError i) : Except PyError Nat))
    (fun _ => true) 3 1 2 (1 / 10) (fun _ => 1 / 10) (by norm_num) (by norm_num)
    (by norm_num) (fun _ => by norm_num) 1 (21 / 10)
    (by norm_num [async_retry_run, retryLoop])

/-! ## Claim C1 — malformed 2xx responses under the default retry policy -/

/-- The `RuntimeError` message `call_llm_api` raises for the given 2xx
body: the no-fields message when a first choice exists, the no-choices
message otherwise. -/
def malformedMsg (resp : LLMResponse) : List Char :=
  match resp.choices with
  | some (_ :: _) => msgNoContent
  | _ => msgNoChoices

/-- C1 amended: a 2xx upstream response whose first choice has neither a
`message.content` field nor a `text` field, or whose `choices` sequence
is empty or absent, makes `call_llm_api` raise `RuntimeError`
(the spec's `MalformedUpstreamResponse`); under the default decorator
configuration (`exceptions = (Exception,)`, `max_retries = 3`) this
error IS retried like any other exception — the underlying HTTP call is
made `LLM_MAX_RETRIES + 1 = 4` times and the error only then propagates
to the caller. -/
theorem malformed_response_retried (resp : LLMResponse) (jv : Nat → ℚ)
    (h : resp.choices = none ∨ resp.choices = some [] ∨
      ∃ c cs, resp.choices = some (c :: cs) ∧
        c.message_content = none ∧ c.text = none) :
    (call_llm_api_run (fun _ => .success resp) jv).result
      = .error (.runtimeError (malformedMsg resp)) ∧
    (call_llm_api_run (fun _ => .success resp) jv).calls = LLM_MAX_RETRIES + 1 := by
  have hatt : llm_attempt (.success resp)
      = .error (.runtimeError (malformedMsg resp)) := by
    rcases h with h | h | ⟨c, cs, hc, hm, ht⟩
    · simp [llm_attempt, parse_llm_response, malformedMsg, h]
    · simp [llm_attempt, parse_llm_response, malformedMsg, h]
    · simp [llm_attempt, parse_llm_response, malformedMsg, hc, hm, ht, Except.map]
  exact async_retry_exhaustion_spec (fun _ => llm_attempt (.success resp))
    (fun _ => true) (fun _ => .runtimeError (malformedMsg resp))
    LLM_MAX_RETRIES 1 2 jv (fun _ _ => ⟨hatt, rfl⟩)

/-- Witness for the amended C1: a 2xx response with `choices = []` is
retried — 4 HTTP calls — and then surfaces as `RuntimeError`. -/
theorem malformed_response_retried_witness :
    (call_llm_api_run (fun _ => .success ⟨some [], none⟩) (fun _ => 0)).result
      = .error (.runtimeError (malformedMsg ⟨some [], none⟩)) ∧
    (call_llm_api_run (fun _ => .success ⟨some [], none⟩) (fun _ => 0)).calls
      = LLM_MAX_RETRIES + 1 :=
  malformed_response_retried ⟨some [], none⟩ (fun _ => 0) (Or.inr (Or.inl rfl))

/-- Counterexample to C1 as stated: for a 2xx response with an empty
`choices` sequence, under the default retry configuration the underlying
HTTP call is made 4 times, not exactly once. -/
theorem malformed_not_retried_counterexample :
    (call_llm_api_run (fun _ => .success ⟨some [], none⟩) (fun _ => 0)).calls = 4 ∧
    (call_llm_api_run (fun _ => .success ⟨some [], none⟩) (fun _ => 0)).calls ≠ 1 := by
  exact ⟨rfl, by decide⟩

/-! ## Claim C9 — per-attempt timeout -/

/-- C9: an operation whose body would take longer than `timeoutSeconds`
makes the wrapper raise `asyncio.TimeoutError` (the spec's
`UpstreamTimeout`); the wrapper waits exactly the deadline and no
longer; the operation's own outcome is discarded (any operation of the
same duration yields the identical wrapped outcome); and in the
`async_retry`-over-`async_timeout` composition used by `call_llm_api`
the deadline governs each individual attempt — with every attempt over
the deadline, all `maxRetries + 1` attempts still run, each waiting
exactly the deadline, and the surfaced error is the timeout error. -/
theorem async_timeout_deadline_spec {A : Type} (t : ℚ) (op : TimedOp A)
    (h : t < op.dur) :
    (async_timeout_run t op).res = .error .timeoutError ∧
    (async_timeout_run t op).dur = t ∧
    (∀ op' : TimedOp A, op'.dur = op.dur →
      async_timeout_run t op' = async_timeout_run t op) ∧
    ∀ (ops : Nat → TimedOp A) (maxR : Nat) (jv : Nat → ℚ),
      (∀ i, t < (ops i).dur) →
      (∀ i, (async_timeout_run t (ops i)).dur = t) ∧
      (async_retry_run (fun i => (async_timeout_run t (ops i)).res) (fun _ => true)
        maxR 1 2 jv).result = .error .timeoutError ∧
      (async_retry_run (fun i => (async_timeout_run t (ops i)).res) (fun _ => true)
        maxR 1 2 jv).calls = maxR + 1 := by
  refine ⟨?_, ?_, ?_, ?_⟩
  · simp [async_timeout_run, wait_for, h]
  · simp [async_timeout_run, wait_for, h]
  · intro op' hd
    simp [async_timeout_run, wait_for, hd, h]
  · intro ops maxR jv hall
    refine ⟨fun i => by simp [async_timeout_run, wait_for, hall i], ?_⟩
    exact async_retry_exhaustion_spec
      (fun i => (async_timeout_run t (ops i)).res) (fun _ => true)
      (fun _ => PyError.timeoutError) maxR 1 2 jv
      (fun i _ => ⟨by simp [async_timeout_run, wait_for, hall i], rfl⟩)

/-- Witness for C9: deadline 1 second, an operation needing 2 seconds
that would return `0`. -/
theorem async_timeout_deadline_spec_witness :
    (async_timeout_run 1 (⟨2, .ok 0⟩ : TimedOp Nat)).res = .error .timeoutError ∧
    (async_timeout_run 1 (⟨2, .ok 0⟩ : TimedOp Nat)).dur = 1 ∧
    (∀ op' : TimedOp Nat, op'.dur = (⟨2, .ok 0⟩ : TimedOp Nat).dur →
      async_timeout_run 1 op' = async_timeout_run 1 (⟨2, .ok 0⟩ : TimedOp Nat)) ∧
    ∀ (ops : Nat → TimedOp Nat) (maxR : Nat) (jv : Nat → ℚ),
      (∀ i, (1 : ℚ) < (ops i).dur) →
      (∀ i, (async_timeout_run 1 (ops i)).dur = 1) ∧
      (async_retry_run (fun i => (async_timeout_run 1 (ops i)).res) (fun _ => true)
        maxR 1 2 jv).result = .error .timeoutError ∧
      (async_retry_run (fun i => (async_timeout_run 1 (ops i)).res) (fun _ => true)
        maxR 1 2 jv).calls = maxR + 1 :=
  async_timeout_deadline_spec 1 ⟨2, .ok 0⟩ (by norm_num)

/-! ## Lemmas about `pyStrip` and the comparison prompt -/

lemma pyStrip_eq_nil_iff (l : List Char) :
    pyStrip l = [] ↔ ∀ c ∈ l, c.isWhitespace = true := by
  unfold pyStrip
  rw [List.reverse_eq_nil_iff, List.dropWhile_eq_nil_iff]
  constructor
  · intro h c hc
    have hsplit := List.takeWhile_append_dropWhile
      (p := fun c => c.isWhitespace) (l := l)
    rw [← hsplit] at hc
    rcases List.mem_append.1 hc with h1 | h2
    · exact List.mem_takeWhile_imp h1
    · exact h c (List.mem_reverse.2 h2)
  · intro h c hc
    exact h c ((List.dropWhile_sublist _).subset (List.mem_reverse.1 hc))

lemma comparePrompt_strip_ne (s1 s2 : List Char) :
    pyStrip (comparePrompt s1 s2) ≠ [] := by
  intro h
  rw [pyStrip_eq_nil_iff] at h
  have hC : 'C' ∈ comparePrompt s1 s2 :=
    List.mem_append_left _ (List.mem_append_left _ (List.mem_append_left _
      (List.mem_append_left _ (by decide))))
  have := h 'C' hC
  simp at this

/-! ## Claim C8 — empty-text short circuit -/

/-- C8: for input text that is empty after trimming, summarization
short-circuits to a zero-usage, empty-text summary with no LLM call
(the prompts list is empty), both in the spec-modelled
`summarize_text_with_llm` and in the inline per-file branch of
`compare_pdfs`, for every LLM-client behaviour. -/
theorem summarize_empty_short_circuit (llm : List Char → Except PyError LLMResult)
    (text : List Char) (h : pyStrip text = []) :
    summarize_text_with_llm llm text = (.ok zeroSummary, []) ∧
    routerFileStep llm text = (.ok zeroSummary, []) ∧
    zeroSummary.summary = [] := by
  refine ⟨?_, ?_, rfl⟩ <;> simp [summarize_text_with_llm, routerFileStep, h]

/-- Witness for C8: a whitespace-only text and an LLM client that would
fail if it were ever called. -/
theorem summarize_empty_short_circuit_witness :
    summarize_text_with_llm (fun _ => .error (.netError 0)) (" ").data
      = (.ok zeroSummary, []) ∧
    routerFileStep (fun _ => .error (.netError 0)) (" ").data
      = (.ok zeroSummary, []) ∧
    zeroSummary.summary = [] :=
  summarize_empty_short_circuit (fun _ => .error (.netError 0)) (" ").data
    (by decide)

/-! ## Claim C7 — exactly three LLM calls, summaries embedded verbatim -/

/-- C7: for two documents whose extracted texts are non-empty after
trimming and whose summarizations succeed, `compare_pdfs` issues exactly
3 underlying LLM calls — one summarization per document plus one verdict
call — and the verdict prompt contains both summary text strings
verbatim. -/
theorem compare_three_calls (llm : List Char → Except PyError LLMResult)
    (t1 t2 : List Char) (r1 r2 : LLMResult)
    (h1 : pyStrip t1 ≠ []) (h2 : pyStrip t2 ≠ [])
    (hl1 : llm t1 = .ok r1) (hl2 : llm t2 = .ok r2) :
    (compare_pdfs_run llm t1 t2).2
      = [t1, t2, comparePrompt r1.summary r2.summary] ∧
    (compare_pdfs_run llm t1 t2).2.length = 3 ∧
    hasSub (comparePrompt r1.summary r2.summary) r1.summary ∧
    hasSub (comparePrompt r1.summary r2.summary) r2.summary := by
  have hstep1 : routerFileStep llm t1 = (.ok r1, [t1]) := by
    simp [routerFileStep, summarize_text_with_llm, h1, hl1]
  have hstep2 : routerFileStep llm t2 = (.ok r2, [t2]) := by
    simp [routerFileStep, summarize_text_with_llm, h2, hl2]
  have hvp := comparePrompt_strip_ne r1.summary r2.summary
  have hmain : (compare_pdfs_run llm t1 t2).2
      = [t1, t2, comparePrompt r1.summary r2.summary] := by
    have hsum : summarize_text_with_llm llm (comparePrompt r1.summary r2.summary)
        = (llm (comparePrompt r1.summary r2.summary),
            [comparePrompt r1.summary r2.summary]) := by
      simp [summarize_text_with_llm, hvp]
    simp only [compare_pdfs_run, hstep1, hstep2, hsum]
    cases hv : llm (comparePrompt r1.summary r2.summary) <;> simp
  refine ⟨hmain, by rw [hmain]; rfl, ?_, ?_⟩
  · exact ⟨cmpPre, cmpMid ++ (r2.summary ++ cmpPost),
      by simp [comparePrompt, List.append_assoc]⟩
  · exact ⟨cmpPre ++ r1.summary ++ cmpMid, cmpPost,
      by simp [comparePrompt, List.append_assoc]⟩

/-- Witness for C7: two one-character documents and an LLM client that
always answers with the summary "A is great". -/
theorem compare_three_calls_witness :
    (compare_pdfs_run (fun _ => .ok ⟨("A is great").data, none, none, none, none⟩)
      ("a").data ("b").data).2
      = [("a").data, ("b").data,
          comparePrompt ("A is great").data ("A is great").data] ∧
    (compare_pdfs_run (fun _ => .ok ⟨("A is great").data, none, none, none, none⟩)
      ("a").data ("b").data).2.length = 3 ∧
    hasSub (comparePrompt ("A is great").data ("A is great").data)
      ("A is great").data ∧
    hasSub (comparePrompt ("A is great").data ("A is great").data)
      ("A is great").data :=
  compare_three_calls (fun _ => .ok ⟨("A is great").data, none, none, none, none⟩)
    ("a").data ("b").data ⟨("A is great").data, none, none, none, none⟩
    ⟨("A is great").data, none, none, none, none⟩
    (by decide) (by decide) rfl rfl

/-! ## Claim C5 — verdict failure degrades gracefully -/

/-- C5 amended: when both document summarizations succeed but the
verdict LLM call fails, `compare_pdfs` does not fail the whole
operation: it returns both already-computed summaries unchanged together
with the placeholder verdict whose text is "Unable to generate verdict."
and whose usage fields are all fabricated as zero
(`prompt_tokens = completion_tokens = total_tokens = 0`,
`estimated_cost = 0.0`) — not absent. -/
theorem compare_verdict_failure (llm : List Char → Except PyError LLMResult)
    (t1 t2 : List Char) (r1 r2 : LLMResult) (e : PyError)
    (h1 : pyStrip t1 ≠ []) (h2 : pyStrip t2 ≠ [])
    (hl1 : llm t1 = .ok r1) (hl2 : llm t2 = .ok r2)
    (hv : llm (comparePrompt r1.summary r2.summary) = .error e) :
    (compare_pdfs_run llm t1 t2).1 = .ok ⟨r1, r2, placeholderVerdict⟩ ∧
    placeholderVerdict.summary = ("Unable to generate verdict.").data ∧
    placeholderVerdict.prompt_tokens = some 0 ∧
    placeholderVerdict.completion_tokens = some 0 ∧
    placeholderVerdict.total_tokens = some 0 ∧
    placeholderVerdict.estimated_cost = some 0 := by
  have hstep1 : routerFileStep llm t1 = (.ok r1, [t1]) := by
    simp [routerFileStep, summarize_text_with_llm, h1, hl1]
  have hstep2 : routerFileStep llm t2 = (.ok r2, [t2]) := by
    simp [routerFileStep, summarize_text_with_llm, h2, hl2]
  have hvp := comparePrompt_strip_ne r1.summary r2.summary
  have hsum : summarize_text_with_llm llm (comparePrompt r1.summary r2.summary)
      = (.error e, [comparePrompt r1.summary r2.summary]) := by
    simp [summarize_text_with_llm, hvp, hv]
  refine ⟨?_, rfl, rfl, rfl, rfl, rfl⟩
  simp only [compare_pdfs_run, hstep1, hstep2, hsum]

/-- Witness for the amended C5: the verdict call raises a network error
while both summarizations succeed. -/
theorem compare_verdict_failure_witness :
    (compare_pdfs_run
      (fun p => if p = ("a").data then .ok ⟨("A is great").data, none, none, none, none⟩
        else if p = ("b").data then .ok ⟨("B is mediocre").data, none, none, none, none⟩
        else .error (.netError 0))
      ("a").data ("b").data).1
      = .ok ⟨⟨("A is great").data, none, none, none, none⟩,
          ⟨("B is mediocre").data, none, none, none, none⟩, placeholderVerdict⟩ ∧
    placeholderVerdict.summary = ("Unable to generate verdict.").data ∧
    placeholderVerdict.prompt_tokens = some 0 ∧
    placeholderVerdict.completion_tokens = some 0 ∧
    placeholderVerdict.total_tokens = some 0 ∧
    placeholderVerdict.estimated_cost = some 0 :=
  compare_verdict_failure
    (fun p => if p = ("a").data then .ok ⟨("A is great").data, none, none, none, none⟩
      else if p = ("b").data then .ok ⟨("B is mediocre").data, none, none, none, none⟩
      else .error (.netError 0))
    ("a").data ("b").data
    ⟨("A is great").data, none, none, none, none⟩
    ⟨("B is mediocre").data, none, none, none, none⟩
    (.netError 0) (by decide) (by decide) rfl rfl (by rfl)

/-- Counterexample to C5 as stated: at a concrete failing verdict call
the placeholder verdict's `total_tokens` field is `0`, not absent. -/
theorem compare_verdict_tokens_counterexample :
    ((compare_pdfs_run
      (fun p => if p = ("a").data then .ok ⟨("A is great").data, none, none, none, none⟩
        else if p = ("b").data then .ok ⟨("B is mediocre").data, none, none, none, none⟩
        else .error (.netError 0))
      ("a").data ("b").data).1.map (fun resp => resp.verdict.total_tokens))
      = .ok (some 0) ∧
    (Except.ok (some 0) : Except Nat (Option Nat)) ≠ .ok none := by
  exact ⟨rfl, by simp⟩

/-! ## Lemmas about whitespace splitting and space joining -/

lemma splitWSAux_good : ∀ (l cur : List Char),
    (∀ c ∈ cur, c.isWhitespace = false) →
    ∀ w ∈ splitWSAux l cur, w ≠ [] ∧ ∀ c ∈ w, c.isWhitespace = false := by
  intro l
  induction l with
  | nil =>
    intro cur hcur w hw
    simp only [splitWSAux] at hw
    by_cases h : cur = []
    · simp [h] at hw
    · simp only [h, if_neg, if_false, List.mem_singleton] at hw
      subst hw
      exact ⟨by simpa using h, fun c hc => hcur c (List.mem_reverse.1 hc)⟩
  | cons c cs ih =>
    intro cur hcur w hw
    simp only [splitWSAux] at hw
    by_cases hws : c.isWhitespace = true
    · simp only [hws, if_true] at hw
      by_cases h : cur = []
      · simp only [h, if_true] at hw
        exact ih [] (by simp) w hw
      · simp only [h, if_neg, if_false, List.mem_cons] at hw
        rcases hw with rfl | hw2
        · exact ⟨by simpa using h, fun x hx => hcur x (List.mem_reverse.1 hx)⟩
        · exact ih [] (by simp) w hw2
    · simp only [hws, if_false] at hw
      refine ih (c :: cur) ?_ w hw
      intro x hx
      rcases List.mem_cons.1 hx with rfl | hx2
      · simpa using hws
      · exact hcur x hx2

lemma splitWS_good (l : List Char) :
    ∀ w ∈ splitWS l, w ≠ [] ∧ ∀ c ∈ w, c.isWhitespace = false :=
  splitWSAux_good l [] (by simp)

lemma splitWSAux_space : ∀ (a b cur : List Char),
    splitWSAux (a ++ ' ' :: b) cur = splitWSAux a cur ++ splitWSAux b [] := by
  have hsp : (' ').isWhitespace = true := by decide
  intro a
  induction a with
  | nil =>
    intro b cur
    by_cases h : cur = [] <;>
      simp [splitWSAux, hsp, h]
  | cons c cs ih =>
    intro b cur
    simp only [List.cons_append, splitWSAux]
    by_cases hws : c.isWhitespace = true
    · by_cases h : cur = [] <;> simp [hws, h, ih]
    · simp [hws, ih]

lemma splitWSAux_no_ws : ∀ (w rest cur : List Char),
    (∀ c ∈ w, c.isWhitespace = false) →
    splitWSAux (w ++ rest) cur = splitWSAux rest (w.reverse ++ cur) := by
  intro w
  induction w with
  | nil => intro rest cur _; simp
  | cons c cs ih =>
    intro rest cur h
    have hc : c.isWhitespace = false := h c (List.mem_cons_self c cs)
    simp only [List.cons_append, splitWSAux, hc, Bool.false_eq_true, if_false]
    show splitWSAux (cs ++ rest) (c :: cur) = splitWSAux rest ((c :: cs).reverse ++ cur)
    rw [ih rest (c :: cur) (fun x hx => h x (List.mem_cons_of_mem c hx))]
    simp [List.append_assoc]

lemma splitWS_single (w : List Char) (hne : w ≠ [])
    (hw : ∀ c ∈ w, c.isWhitespace = false) : splitWS w = [w] := by
  have h1 : splitWSAux (w ++ []) [] = splitWSAux [] (w.reverse ++ []) :=
    splitWSAux_no_ws w [] [] hw
  simp only [List.append_nil] at h1
  unfold splitWS
  rw [h1]
  simp [splitWSAux, hne]

lemma joinSp_cons_cons (w x : List Char) (ws : List (List Char)) :
    joinSp (w :: x :: ws) = w ++ ' ' :: joinSp (x :: ws) := rfl

lemma splitWS_joinSp_chunks : ∀ (cs : List (List Char)),
    splitWS (joinSp cs) = (cs.map splitWS).flatten := by
  intro cs
  induction cs with
  | nil => simp [joinSp, splitWS, splitWSAux]
  | cons c cs ih =>
    cases cs with
    | nil => simp [joinSp]
    | cons d ds =>
      unfold splitWS
      rw [joinSp_cons_cons, splitWSAux_space]
      rw [List.map_cons, List.flatten_cons]
      unfold splitWS at ih
      rw [ih]

lemma splitWS_joinSp_words (ws : List (List Char))
    (h : ∀ w ∈ ws, w ≠ [] ∧ ∀ c ∈ w, c.isWhitespace = false) :
    splitWS (joinSp ws) = ws := by
  rw [splitWS_joinSp_chunks]
  induction ws with
  | nil => simp
  | cons w ws ih =>
    have hw := h w (List.mem_cons_self w ws)
    rw [List.map_cons, List.flatten_cons, splitWS_single w hw.1 hw.2,
      ih (fun x hx => h x (List.mem_cons_of_mem w hx))]
    rfl

lemma joinSp_append_single : ∀ (l : List (List Char)) (w : List Char),
    (joinSp (l ++ [w])).length ≤ (joinSp l).length + 1 + w.length := by
  intro l
  induction l with
  | nil => intro w; simp [joinSp]
  | cons x l ih =>
    intro w
    cases l with
    | nil =>
      simp [joinSp, joinSp_cons_cons]
      omega
    | cons y l2 =>
      have h1 : joinSp (x :: y :: (l2 ++ [w])) = x ++ ' ' :: joinSp (y :: (l2 ++ [w])) := rfl
      have h2 : joinSp (x :: y :: l2) = x ++ ' ' :: joinSp (y :: l2) := rfl
      simp only [List.cons_append]
      rw [h1, h2]
      simp only [List.length_append, List.length_cons]
      have h3 := ih w
      simp only [List.cons_append] at h3
      omega

/-! ## Chunker invariants -/

lemma chunkAux_words (B : Nat) : ∀ (ws cur : List (List Char)) (curLen : Nat),
    (∀ w ∈ cur, w ≠ [] ∧ ∀ c ∈ w, c.isWhitespace = false) →
    (∀ w ∈ ws, w ≠ [] ∧ ∀ c ∈ w, c.isWhitespace = false) →
    ((chunkAux B ws cur curLen).map splitWS).flatten = cur ++ ws := by
  intro ws
  induction ws with
  | nil =>
    intro cur curLen hcur _
    by_cases h : cur = []
    · simp [chunkAux, h]
    · simp [chunkAux, h, splitWS_joinSp_words cur hcur]
  | cons w ws ih =>
    intro cur curLen hcur hws
    have hws' : ∀ x ∈ ws, x ≠ [] ∧ ∀ c ∈ x, c.isWhitespace = false :=
      fun x hx => hws x (List.mem_cons_of_mem w hx)
    simp only [chunkAux]
    by_cases h : B < curLen + w.length + 1
    · rw [if_pos h, List.map_cons, List.flatten_cons,
        splitWS_joinSp_words cur hcur,
        ih [w] w.length (by
          intro x hx
          rw [List.mem_singleton.1 hx]
          exact hws w (List.mem_cons_self w ws)) hws']
      simp
    · rw [if_neg h, ih (cur ++ [w]) (curLen + w.length + 1) (by
        intro x hx
        rcases List.mem_append.1 hx with hx2 | hx2
        · exact hcur x hx2
        · rw [List.mem_singleton.1 hx2]
          exact hws w (List.mem_cons_self w ws)) hws']
      simp

lemma chunkAux_length (B : Nat) (W : List (List Char)) :
    ∀ (ws cur : List (List Char)) (curLen : Nat),
    (joinSp cur).length ≤ curLen →
    (curLen ≤ B ∨ ∃ w, cur = [w] ∧ w ∈ W ∧ B < w.length) →
    (∀ w ∈ ws, w ∈ W) →
    ∀ c ∈ chunkAux B ws cur curLen,
      c.length ≤ B ∨ ∃ w, c = w ∧ w ∈ W ∧ B < w.length := by
  intro ws
  induction ws with
  | nil =>
    intro cur curLen hlen hinv _ c hc
    by_cases h : cur = []
    · simp [chunkAux, h] at hc
    · simp only [chunkAux, h, if_neg, if_false, List.mem_singleton] at hc
      subst hc
      rcases hinv with hB | ⟨w, rfl, hwW, hwB⟩
      · exact Or.inl (hlen.trans hB)
      · exact Or.inr ⟨w, by simp [joinSp], hwW, hwB⟩
  | cons w ws ih =>
    intro cur curLen hlen hinv hmem c hc
    simp only [chunkAux] at hc
    by_cases h : B < curLen + w.length + 1
    · rw [if_pos h] at hc
      rcases List.mem_cons.1 hc with rfl | hc2
      · rcases hinv with hB | ⟨w', rfl, hwW, hwB⟩
        · exact Or.inl (hlen.trans hB)
        · exact Or.inr ⟨w', by simp [joinSp], hwW, hwB⟩
      · refine ih [w] w.length (by simp [joinSp]) ?_
          (fun x hx => hmem x (List.mem_cons_of_mem w hx)) c hc2
        rcases le_or_lt w.length B with h1 | h2
        · exact Or.inl h1
        · exact Or.inr ⟨w, rfl, hmem w (List.mem_cons_self w ws), h2⟩
    · rw [if_neg h] at hc
      refine ih (cur ++ [w]) (curLen + w.length + 1) ?_ (Or.inl (by omega))
        (fun x hx => hmem x (List.mem_cons_of_mem w hx)) c hc
      have := joinSp_append_single cur w
      omega

/-! ## Claims C6, C10 — chunker -/

/-- C6: for every text `T` and budget `B > 0`, every chunk of
`chunk_text T B` has length at most `B` unless it is a single word of
`T` longer than `B`, in which case the chunk is exactly that word (its
length equals the word's length — words are never split mid-word); and
joining all chunks with single spaces and re-splitting on whitespace
reconstructs `T`'s word sequence exactly, in order. -/
theorem chunk_text_spec (T : List Char) (B : Nat) (hB : 0 < B) :
    (∀ c ∈ chunk_text T B, c.length ≤ B ∨
      ∃ w, c = w ∧ w ∈ splitWS T ∧ B < w.length ∧ c.length = w.length) ∧
    splitWS (joinSp (chunk_text T B)) = splitWS T := by
  constructor
  · intro c hc
    have h := chunkAux_length B (splitWS T) (splitWS T) [] 0
      (by simp [joinSp]) (Or.inl (Nat.zero_le B)) (fun w hw => hw) c hc
    rcases h with h | ⟨w, rfl, hw, hb⟩
    · exact Or.inl h
    · exact Or.inr ⟨c, rfl, hw, hb, rfl⟩
  · rw [splitWS_joinSp_chunks]
    unfold chunk_text
    rw [chunkAux_words B (splitWS T) [] 0 (by simp) (splitWS_good T)]
    rfl

/-- Witness for C6: the text "aa b cccc" with budget 3 — its chunks are
"aa", "b" and the overlong single word "cccc" — satisfies both the
length bound and the word-sequence reconstruction. -/
theorem chunk_text_spec_witness :
    (∀ c ∈ chunk_text ("aa b cccc").data 3, c.length ≤ 3 ∨
      ∃ w, c = w ∧ w ∈ splitWS ("aa b cccc").data ∧ 3 < w.length ∧
        c.length = w.length) ∧
    splitWS (joinSp (chunk_text ("aa b cccc").data 3))
      = splitWS ("aa b cccc").data :=
  chunk_text_spec ("aa b cccc").data 3 (by decide)

/-- C10: for every budget `B > 0`, when the first word of the text has
length at least `B` (so the very first loop iteration overflows),
`chunk_text` flushes the still-empty current chunk, emitting a leading
empty-string chunk before the chunk built from that word — the result
can contain an empty string even though the input is non-empty. -/
theorem chunk_text_leading_empty (T : List Char) (B : Nat) (hB : 0 < B)
    (w : List Char) (ws : List (List Char))
    (hsplit : splitWS T = w :: ws) (hlen : B ≤ w.length) :
    chunk_text T B = [] :: chunkAux B ws [w] w.length := by
  unfold chunk_text
  rw [hsplit]
  simp only [chunkAux]
  rw [if_pos (by omega)]
  rfl

/-- Witness for C10, the claim's own example:
`chunk_text "hello" 5 = ["", "hello"]`. -/
theorem chunk_text_leading_empty_witness :
    chunk_text ("hello").data 5 = [] :: chunkAux 5 [] [("hello").data] 5 ∧
    chunk_text ("hello").data 5 = [[], ("hello").data] :=
  ⟨chunk_text_leading_empty ("hello").data 5 (by decide) ("hello").data []
    (by decide) (by decide), by decide⟩

end PDFBackend
